import Mathlib

/-!
Verification of the model-transform core of `aivis_style_gui.py`
(class `AivisSpeechStyleAdder`): loading a speech-synthesis model
configuration (plain JSON or ZIP-packaged), merging a fixed catalog of six
speaking styles into it, and saving it back.

JSON values are embedded as an inductive `JValue`; Python dicts are
association lists preserving insertion order (Python 3.7+ semantics), and
JSON numbers are rationals (the literals involved are exact decimals).
Fallible Python operations (KeyError, TypeError, FileNotFoundError, ...)
become `Except String`.  The filesystem is an explicit state `FS` threaded
through load/save; an I/O write failure is modelled by a set of paths on
which opening for write raises.
-/

set_option autoImplicit false

/-- A JSON value: null, boolean, number (rational), string, array, object.
Objects are ordered association lists, matching Python dict insertion
order. -/
inductive JValue where
  | null : JValue
  | bool (b : Bool) : JValue
  | num (q : ℚ) : JValue
  | str (s : String) : JValue
  | arr (xs : List JValue) : JValue
  | obj (fields : List (String × JValue)) : JValue

/-- Python `d[k]` / `d.get(k)`: first binding of `k` in the association
list, if any. -/
def dictGet? {α : Type} (d : List (String × α)) (k : String) : Option α :=
  match d with
  | [] => none
  | (k', v) :: rest => if k' = k then some v else dictGet? rest k

/-- Python `k in d`. -/
def dictContains {α : Type} (d : List (String × α)) (k : String) : Bool :=
  (dictGet? d k).isSome

/-- Python `d[k] = v`: replace the value of an existing binding in place,
else append the new binding at the end (insertion-order semantics). -/
def dictAssign {α : Type} (d : List (String × α)) (k : String) (v : α) :
    List (String × α) :=
  match d with
  | [] => [(k, v)]
  | (k', v') :: rest =>
      if k' = k then (k', v) :: rest else (k', v') :: dictAssign rest k v

/-- Whether `p` starts the list `s`. -/
def listStarts (p s : List Char) : Bool :=
  match p, s with
  | [], _ => true
  | _ :: _, [] => false
  | a :: p', b :: s' => a = b && listStarts p' s'

/-- Whether `p` occurs contiguously inside `s`. -/
def listHasInfix (p s : List Char) : Bool :=
  match s with
  | [] => p.isEmpty
  | _ :: s' => listStarts p s || listHasInfix p s'

namespace AivisSpeechStyleAdder

/-- `self.styles` from `__init__`: style identifier to display name, in
insertion order. -/
def styles : List (String × String) :=
  [("normal", "ノーマル"),
   ("standard", "通常"),
   ("high_tension", "テンション高め"),
   ("calm", "落ち着き"),
   ("cheerful", "上機嫌"),
   ("emotional", "怒り・悲しみ")]

/-- Parameters of the "normal" style. -/
def params_normal : JValue :=
  .obj [("speed", .num 1.0), ("pitch", .num 0.0), ("intonation", .num 1.0),
        ("volume", .num 1.0), ("emotion_strength", .num 0.5)]

/-- Parameters of the "standard" style. -/
def params_standard : JValue :=
  .obj [("speed", .num 1.0), ("pitch", .num 0.0), ("intonation", .num 1.0),
        ("volume", .num 1.0), ("emotion_strength", .num 0.5)]

/-- Parameters of the "high_tension" style. -/
def params_high_tension : JValue :=
  .obj [("speed", .num 1.2), ("pitch", .num 0.2), ("intonation", .num 1.5),
        ("volume", .num 1.2), ("emotion_strength", .num 0.8)]

/-- Parameters of the "calm" style. -/
def params_calm : JValue :=
  .obj [("speed", .num 0.9), ("pitch", .num (-0.1)), ("intonation", .num 0.8),
        ("volume", .num 0.9), ("emotion_strength", .num 0.3)]

/-- Parameters of the "cheerful" style. -/
def params_cheerful : JValue :=
  .obj [("speed", .num 1.1), ("pitch", .num 0.1), ("intonation", .num 1.3),
        ("volume", .num 1.1), ("emotion_strength", .num 0.7)]

/-- Parameters of the "emotional" style. -/
def params_emotional : JValue :=
  .obj [("speed", .num 0.95), ("pitch", .num (-0.2)), ("intonation", .num 1.4),
        ("volume", .num 1.0), ("emotion_strength", .num 0.9)]

/-- The local `style_params` table of `_get_style_parameters`. -/
def style_params : List (String × JValue) :=
  [("normal", params_normal),
   ("standard", params_standard),
   ("high_tension", params_high_tension),
   ("calm", params_calm),
   ("cheerful", params_cheerful),
   ("emotional", params_emotional)]

/-- `_get_style_parameters`: `style_params.get(style_id, style_params["normal"])`. -/
def get_style_parameters (style_id : String) : JValue :=
  (dictGet? style_params style_id).getD params_normal

/-- The `{"name": style_name, "parameters": ...}` entry inserted for one
catalog item. -/
def styleEntry (style_id style_name : String) : JValue :=
  .obj [("name", .str style_name),
        ("parameters", get_style_parameters style_id)]

/-- The loop `for style_id, style_name in self.styles.items(): config["styles"][style_id] = ...`
acting on the (already dict-valued) styles table. -/
def insertCatalog (st : List (String × JValue)) : List (String × JValue) :=
  styles.foldl (fun st p => dictAssign st p.1 (styleEntry p.1 p.2)) st

/-- `list(self.styles.keys())` as a JSON array. -/
def styleIdsJson : JValue :=
  .arr (styles.map (fun p => JValue.str p.1))

/-- Python `"styles" in s` for a string `s`: substring test. -/
def hasStylesSubstr (s : String) : Bool :=
  listHasInfix "styles".toList s.toList

/-- The body of `for speaker in config["speakers"]` for one element:
for a dict, `if "styles" not in speaker: speaker["styles"] = list(self.styles.keys())`;
for a string or list, the `in` test succeeds or the item assignment raises
TypeError; for other values the membership test itself raises TypeError. -/
def speakerStep (speaker : JValue) : Except String JValue :=
  match speaker with
  | .obj fields =>
      if dictContains fields "styles" then .ok speaker
      else .ok (.obj (dictAssign fields "styles" styleIdsJson))
  | .str s =>
      if hasStylesSubstr s then .ok speaker
      else .error "TypeError: str object does not support item assignment"
  | .arr xs =>
      if xs.any (fun x => match x with | .str s => s = "styles" | _ => false)
      then .ok speaker
      else .error "TypeError: list indices must be integers"
  | _ => .error "TypeError: argument not iterable"

/-- The speaker loop over a list container, element by element, stopping
at the first raised error. -/
def mapSpeakers : List JValue → Except String (List JValue)
  | [] => .ok []
  | x :: xs =>
      match speakerStep x with
      | .error e => .error e
      | .ok y =>
          match mapSpeakers xs with
          | .error e => .error e
          | .ok ys => .ok (y :: ys)

/-- The `speakers` loop over the whole container `config["speakers"]`:
a list is iterated element-wise; a dict is iterated over its keys (strings,
never mutated: each must pass the substring test or the item assignment
raises); the empty string iterates zero times; everything else is either
not iterable or fails on its first element. -/
def speakersPass (speakersVal : JValue) : Except String JValue :=
  match speakersVal with
  | .arr xs =>
      match mapSpeakers xs with
      | .error e => .error e
      | .ok ys => .ok (.arr ys)
  | .obj kvs =>
      if kvs.all (fun p => hasStylesSubstr p.1) then .ok (.obj kvs)
      else .error "TypeError: str object does not support item assignment"
  | .str s =>
      if s = "" then .ok (.str s)
      else .error "TypeError: str object does not support item assignment"
  | _ => .error "TypeError: argument not iterable"

/-- `if "styles" not in config: config["styles"] = {}`. -/
def ensure_styles (config : List (String × JValue)) : List (String × JValue) :=
  if dictContains config "styles" then config
  else dictAssign config "styles" (.obj [])

/-- `if "speakers" in config: for speaker in config["speakers"]: ...`
(the `in` test is exactly "the lookup succeeds"). -/
def speakersPhase (config : List (String × JValue)) :
    Except String (List (String × JValue)) :=
  match dictGet? config "speakers" with
  | some sv =>
      match speakersPass sv with
      | .error e => .error e
      | .ok sv' => .ok (dictAssign config "speakers" sv')
  | none => .ok config

/-- `add_styles_to_model` acting on the configuration dict `config`
(the value of `model_data["config"]` for a packaged model, `model_data`
itself otherwise): ensure a `styles` key, overwrite the six catalog
entries, then give every speaker lacking a `styles` field the ordered
identifier list. -/
def addStylesToConfig (config : List (String × JValue)) :
    Except String (List (String × JValue)) :=
  match dictGet? (ensure_styles config) "styles" with
  | some (.obj st) =>
      speakersPhase
        (dictAssign (ensure_styles config) "styles" (.obj (insertCatalog st)))
  | _ => .error "TypeError: styles is not a dict"

/-- `model_data.get("type") == "aivis"`. -/
def isAivisTagged (fields : List (String × JValue)) : Bool :=
  match dictGet? fields "type" with
  | some (.str s) => s = "aivis"
  | _ => false

/-- `add_styles_to_model(model_data)`: dispatch on the in-band `type` tag,
merge into `model_data["config"]` for a packaged document and into
`model_data` itself for a plain one, and return the updated document. -/
def add_styles_to_model (model_data : JValue) : Except String JValue :=
  match model_data with
  | .obj fields =>
      if isAivisTagged fields then
        match dictGet? fields "config" with
        | some (.obj c) =>
            match addStylesToConfig c with
            | .error e => .error e
            | .ok c' => .ok (.obj (dictAssign fields "config" (.obj c')))
        | some _ => .error "TypeError: config is not a dict"
        | none => .error "KeyError: config"
      else
        match addStylesToConfig fields with
        | .error e => .error e
        | .ok c' => .ok (.obj c')
  | _ => .error "AttributeError: value has no attribute get"

end AivisSpeechStyleAdder

/-- Contents of a file: bytes that parse as JSON (abstracted to the parsed
value), bytes that form a valid ZIP archive (abstracted to its entry list),
or any other bytes. -/
inductive Content where
  | json (v : JValue) : Content
  | zip (entries : List (String × Content)) : Content
  | raw (s : String) : Content

/-- The filesystem state threaded through load/save: regular files by path,
existing directories, and the set of paths on which opening for write
raises an I/O error (the failure oracle for `IOError`). -/
structure FS where
  files : List (String × Content)
  dirs : List String
  failWrite : List String

/-- `Path.mkdir(exist_ok=True)`. -/
def FS.mkdir (fs : FS) (d : String) : FS :=
  if d ∈ fs.dirs then fs else { fs with dirs := d :: fs.dirs }

/-- Python `s.endswith(t)`. -/
def endswith (s t : String) : Bool :=
  listStarts t.data.reverse s.data.reverse

/-- Whether path `p` lies strictly below directory `d`. -/
def underDir (d p : String) : Bool :=
  listStarts (d ++ "/").data p.data

/-- Overwrite or create the file at `p`. -/
def FS.writeFile (fs : FS) (p : String) (c : Content) : FS :=
  { fs with files := dictAssign fs.files p c }

/-- Read the file at `p`, if it exists. -/
def FS.readFile? (fs : FS) (p : String) : Option Content :=
  dictGet? fs.files p

/-- `shutil.rmtree(d, ignore_errors=True)`: drop the directory and every
file below it. -/
def FS.rmtree (fs : FS) (d : String) : FS :=
  { fs with
    files := fs.files.filter (fun p => ¬ underDir d p.1),
    dirs := fs.dirs.filter (fun d' => d' ≠ d) }

/-- `zip_ref.extractall(d)`: write each archive entry below `d`
(pre-existing files not present in the archive are left in place). -/
def FS.extractAll (fs : FS) (d : String) (entries : List (String × Content)) : FS :=
  entries.foldl (fun fs e => fs.writeFile (d ++ "/" ++ e.1) e.2) fs

namespace AivisSpeechStyleAdder

/-- The fixed staging directory `temp_aivis_extract` of `_load_aivis_model`. -/
def temp_dir : String := "temp_aivis_extract"

/-- `_load_aivis_model`: make the staging directory, extract the archive
into it, and parse `config.json` from it; on any failure inside the `try`
block, remove the staging directory and propagate the error. -/
def load_aivis_model (fs : FS) (model_path : String) :
    Except String JValue × FS :=
  let fs := fs.mkdir temp_dir
  match fs.readFile? model_path with
  | some (.zip entries) =>
      let fs := fs.extractAll temp_dir entries
      match fs.readFile? (temp_dir ++ "/config.json") with
      | some (.json config) =>
          (.ok (.obj [("type", .str "aivis"), ("config", config),
                      ("temp_dir", .str temp_dir)]), fs)
      | some _ => (.error "JSONDecodeError", fs.rmtree temp_dir)
      | none =>
          (.error "FileNotFoundError: config.json not found",
           fs.rmtree temp_dir)
  | some _ => (.error "BadZipFile", fs.rmtree temp_dir)
  | none => (.error "FileNotFoundError: no such file", fs.rmtree temp_dir)

/-- `load_model`: dispatch on the filename extension. -/
def load_model (fs : FS) (model_path : String) : Except String JValue × FS :=
  if endswith model_path ".aivis" then load_aivis_model fs model_path
  else if endswith model_path ".json" then
    match fs.readFile? model_path with
    | some (.json v) => (.ok v, fs)
    | some _ => (.error "JSONDecodeError", fs)
    | none => (.error "FileNotFoundError: no such file", fs)
  else (.error "ValueError: unsupported file format", fs)

/-- `_save_aivis_model`: write the configuration back to `config.json`
inside the staging directory, zip every file below the staging directory
into the output path with names relative to it, then remove the staging
directory.  Note the removal happens only after a successful archive
write: an I/O error on either write returns without any cleanup. -/
def save_aivis_model (fs : FS) (model_data : JValue) (output_path : String) :
    Except String Unit × FS :=
  match model_data with
  | .obj fields =>
      match dictGet? fields "temp_dir" with
      | some (.str td) =>
          let config_path := td ++ "/config.json"
          if config_path ∈ fs.failWrite then (.error "IOError", fs)
          else
            match dictGet? fields "config" with
            | some cfg =>
                let fs := fs.writeFile config_path (.json cfg)
                if output_path ∈ fs.failWrite then (.error "IOError", fs)
                else
                  let staged := fs.files.filter (fun p => underDir td p.1)
                  let entries :=
                    staged.map (fun p =>
                      (String.mk (p.1.data.drop (td.data.length + 1)), p.2))
                  let fs := fs.writeFile output_path (.zip entries)
                  (.ok (), fs.rmtree td)
            | none => (.error "KeyError: config", fs)
      | some _ => (.error "TypeError: invalid path argument", fs)
      | none => (.error "KeyError: temp_dir", fs)
  | _ => (.error "AttributeError: value has no attribute get", fs)

/-- `save_model`: packaged documents go through `_save_aivis_model`; plain
ones are dumped as indented UTF-8 JSON to the output path. -/
def save_model (fs : FS) (model_data : JValue) (output_path : String) :
    Except String Unit × FS :=
  match model_data with
  | .obj fields =>
      if isAivisTagged fields then save_aivis_model fs model_data output_path
      else if output_path ∈ fs.failWrite then (.error "IOError", fs)
      else (.ok (), fs.writeFile output_path (.json model_data))
  | _ => (.error "AttributeError: value has no attribute get", fs)

/-- One iteration of `process_files`: `load_model`, `add_styles_to_model`,
`save_model` in sequence, stopping at the first error. -/
def process_file (fs : FS) (input_file output_file : String) :
    Except String Unit × FS :=
  match load_model fs input_file with
  | (.error e, fs) => (.error e, fs)
  | (.ok m, fs) =>
      match add_styles_to_model m with
      | .error e => (.error e, fs)
      | .ok m' => save_model fs m' output_file

end AivisSpeechStyleAdder

/-- Observer: the list of keys of the `styles` mapping of a configuration
object (empty if there is none). -/
def stylesKeysOf (v : JValue) : List String :=
  match v with
  | .obj fields =>
      match dictGet? fields "styles" with
      | some (.obj st) => st.map Prod.fst
      | _ => []
  | _ => []

/-- Observer: the `name` field of a style entry. -/
def entryName (v : JValue) : Option JValue :=
  match v with
  | .obj e => dictGet? e "name"
  | _ => none

/-! ### Association-list lemmas -/

theorem dictGet?_assign {α : Type} (d : List (String × α)) (k k' : String) (v : α) :
    dictGet? (dictAssign d k v) k' = if k = k' then some v else dictGet? d k' := by
  induction d with
  | nil =>
      by_cases h : k = k' <;> simp [dictAssign, dictGet?, h]
  | cons p rest ih =>
      obtain ⟨k₀, v₀⟩ := p
      by_cases h₀ : k₀ = k
      · subst h₀
        by_cases h : k₀ = k' <;> simp [dictAssign, dictGet?, h]
      · by_cases h : k₀ = k'
        · subst h
          have hk : ¬ k = k₀ := fun hh => h₀ hh.symm
          simp [dictAssign, dictGet?, h₀, hk]
        · simp [dictAssign, dictGet?, h₀, h, ih]

theorem dictContains_assign {α : Type} (d : List (String × α)) (k k' : String) (v : α) :
    dictContains (dictAssign d k v) k' = (decide (k = k') || dictContains d k') := by
  by_cases h : k = k' <;> simp [dictContains, dictGet?_assign, h]

theorem dictAssign_same {α : Type} (d : List (String × α)) (k : String) (v : α)
    (h : dictGet? d k = some v) : dictAssign d k v = d := by
  induction d with
  | nil => simp [dictGet?] at h
  | cons p rest ih =>
      obtain ⟨k₀, v₀⟩ := p
      by_cases h₀ : k₀ = k
      · subst h₀
        simp [dictGet?] at h
        simp [dictAssign, h]
      · simp [dictGet?, h₀] at h
        simp [dictAssign, h₀, ih h]

namespace AivisSpeechStyleAdder

/-- `insertCatalog` spelled out as six successive dict assignments. -/
theorem insertCatalog_eq (st : List (String × JValue)) :
    insertCatalog st =
      dictAssign (dictAssign (dictAssign (dictAssign (dictAssign (dictAssign st
        "normal" (styleEntry "normal" "ノーマル"))
        "standard" (styleEntry "standard" "通常"))
        "high_tension" (styleEntry "high_tension" "テンション高め"))
        "calm" (styleEntry "calm" "落ち着き"))
        "cheerful" (styleEntry "cheerful" "上機嫌"))
        "emotional" (styleEntry "emotional" "怒り・悲しみ") := rfl

theorem insertCatalog_get_normal (st : List (String × JValue)) :
    dictGet? (insertCatalog st) "normal" =
      some (styleEntry "normal" "ノーマル") := by
  rw [insertCatalog_eq]
  simp [dictGet?_assign]

theorem insertCatalog_get_standard (st : List (String × JValue)) :
    dictGet? (insertCatalog st) "standard" =
      some (styleEntry "standard" "通常") := by
  rw [insertCatalog_eq]
  simp [dictGet?_assign]

theorem insertCatalog_get_high_tension (st : List (String × JValue)) :
    dictGet? (insertCatalog st) "high_tension" =
      some (styleEntry "high_tension" "テンション高め") := by
  rw [insertCatalog_eq]
  simp [dictGet?_assign]

theorem insertCatalog_get_calm (st : List (String × JValue)) :
    dictGet? (insertCatalog st) "calm" =
      some (styleEntry "calm" "落ち着き") := by
  rw [insertCatalog_eq]
  simp [dictGet?_assign]

theorem insertCatalog_get_cheerful (st : List (String × JValue)) :
    dictGet? (insertCatalog st) "cheerful" =
      some (styleEntry "cheerful" "上機嫌") := by
  rw [insertCatalog_eq]
  simp [dictGet?_assign]

theorem insertCatalog_get_emotional (st : List (String × JValue)) :
    dictGet? (insertCatalog st) "emotional" =
      some (styleEntry "emotional" "怒り・悲しみ") := by
  rw [insertCatalog_eq]
  simp [dictGet?_assign]

theorem insertCatalog_get_other (st : List (String × JValue)) (k : String)
    (h : ¬ k ∈ styles.map Prod.fst) :
    dictGet? (insertCatalog st) k = dictGet? st k := by
  simp [styles] at h
  obtain ⟨h₁, h₂, h₃, h₄, h₅, h₆⟩ := h
  have g₁ : ¬ ("normal" = k) := fun hh => h₁ hh.symm
  have g₂ : ¬ ("standard" = k) := fun hh => h₂ hh.symm
  have g₃ : ¬ ("high_tension" = k) := fun hh => h₃ hh.symm
  have g₄ : ¬ ("calm" = k) := fun hh => h₄ hh.symm
  have g₅ : ¬ ("cheerful" = k) := fun hh => h₅ hh.symm
  have g₆ : ¬ ("emotional" = k) := fun hh => h₆ hh.symm
  rw [insertCatalog_eq]
  simp [dictGet?_assign, g₁, g₂, g₃, g₄, g₅, g₆]

end AivisSpeechStyleAdder

namespace AivisSpeechStyleAdder

/-! ### Shape lemmas for the merge phases -/

theorem ensure_styles_get_ne (config : List (String × JValue)) (k : String)
    (h : ¬ ("styles" = k)) :
    dictGet? (ensure_styles config) k = dictGet? config k := by
  unfold ensure_styles
  split
  · rfl
  · rw [dictGet?_assign]
    simp [h]

theorem ensure_styles_of_contains (config : List (String × JValue))
    (h : dictContains config "styles" = true) :
    ensure_styles config = config := by
  simp [ensure_styles, h]

theorem ensure_styles_get_of_not_contains (config : List (String × JValue))
    (h : dictContains config "styles" = false) :
    dictGet? (ensure_styles config) "styles" = some (.obj []) := by
  simp [ensure_styles, h, dictGet?_assign]

theorem speakersPhase_ok_get_ne {config config' : List (String × JValue)}
    (h : speakersPhase config = .ok config') (k : String)
    (hk : ¬ ("speakers" = k)) :
    dictGet? config' k = dictGet? config k := by
  unfold speakersPhase at h
  split at h
  · split at h
    · exact absurd h (by simp)
    · simp only [Except.ok.injEq] at h
      subst h
      rw [dictGet?_assign]
      simp [hk]
  · simp only [Except.ok.injEq] at h
    subst h
    rfl

theorem addStylesToConfig_ok_styles {config config' : List (String × JValue)}
    (h : addStylesToConfig config = .ok config') :
    ∃ st, dictGet? (ensure_styles config) "styles" = some (.obj st) ∧
      dictGet? config' "styles" = some (.obj (insertCatalog st)) := by
  unfold addStylesToConfig at h
  split at h
  · rename_i st heq
    refine ⟨st, heq, ?_⟩
    rw [speakersPhase_ok_get_ne h "styles" (by decide), dictGet?_assign]
    simp
  · exact absurd h (by simp)

theorem addStylesToConfig_ok_get_ne {config config' : List (String × JValue)}
    (h : addStylesToConfig config = .ok config') (k : String)
    (hk₁ : ¬ ("styles" = k)) (hk₂ : ¬ ("speakers" = k)) :
    dictGet? config' k = dictGet? config k := by
  unfold addStylesToConfig at h
  split at h
  · rw [speakersPhase_ok_get_ne h k hk₂, dictGet?_assign]
    simp [hk₁, ensure_styles_get_ne config k hk₁]
  · exact absurd h (by simp)

end AivisSpeechStyleAdder

namespace AivisSpeechStyleAdder

/-! ### Idempotence of the merge -/

theorem speakerStep_idem {x y : JValue} (h : speakerStep x = .ok y) :
    speakerStep y = .ok y := by
  cases x with
  | obj fields =>
      cases hc : dictContains fields "styles" with
      | false =>
          simp [speakerStep, hc] at h
          subst h
          simp [speakerStep, dictContains_assign]
      | true =>
          simp [speakerStep, hc] at h
          subst h
          simp [speakerStep, hc]
  | str s =>
      cases hs : hasStylesSubstr s with
      | false => simp [speakerStep, hs] at h
      | true =>
          simp [speakerStep, hs] at h
          subst h
          simp [speakerStep, hs]
  | arr xs =>
      cases ha : xs.any (fun x => match x with | .str s => s = "styles" | _ => false) with
      | false => simp [speakerStep, ha] at h
      | true =>
          simp [speakerStep, ha] at h
          subst h
          simp [speakerStep, ha]
  | null => simp [speakerStep] at h
  | bool b => simp [speakerStep] at h
  | num q => simp [speakerStep] at h

theorem mapSpeakers_idem {xs ys : List JValue} (h : mapSpeakers xs = .ok ys) :
    mapSpeakers ys = .ok ys := by
  induction xs generalizing ys with
  | nil =>
      simp [mapSpeakers] at h
      subst h
      simp [mapSpeakers]
  | cons x xs ih =>
      cases hstep : speakerStep x with
      | error e => simp [mapSpeakers, hstep] at h
      | ok y =>
          cases hrec : mapSpeakers xs with
          | error e => simp [mapSpeakers, hstep, hrec] at h
          | ok ys' =>
              simp [mapSpeakers, hstep, hrec] at h
              subst h
              simp [mapSpeakers, speakerStep_idem hstep, ih hrec]

theorem speakersPass_idem {sv sv' : JValue} (h : speakersPass sv = .ok sv') :
    speakersPass sv' = .ok sv' := by
  cases sv with
  | arr xs =>
      cases hm : mapSpeakers xs with
      | error e => simp [speakersPass, hm] at h
      | ok ys =>
          simp [speakersPass, hm] at h
          subst h
          simp [speakersPass, mapSpeakers_idem hm]
  | obj kvs =>
      cases hall : kvs.all (fun p => hasStylesSubstr p.1) with
      | false => simp [speakersPass, hall] at h
      | true =>
          simp [speakersPass, hall] at h
          subst h
          simp [speakersPass, hall]
  | str s =>
      by_cases hs : s = ""
      · subst hs
        simp [speakersPass] at h
        subst h
        simp [speakersPass]
      · simp [speakersPass, hs] at h
  | null => simp [speakersPass] at h
  | bool b => simp [speakersPass] at h
  | num q => simp [speakersPass] at h

theorem speakersPhase_idem {c c' : List (String × JValue)}
    (h : speakersPhase c = .ok c') : speakersPhase c' = .ok c' := by
  cases hg : dictGet? c "speakers" with
  | none =>
      simp [speakersPhase, hg] at h
      subst h
      simp [speakersPhase, hg]
  | some sv =>
      cases hp : speakersPass sv with
      | error e => simp [speakersPhase, hg, hp] at h
      | ok sv' =>
          simp [speakersPhase, hg, hp] at h
          subst h
          have hg' : dictGet? (dictAssign c "speakers" sv') "speakers" = some sv' := by
            rw [dictGet?_assign]
            simp
          simp [speakersPhase, hg', speakersPass_idem hp,
            dictAssign_same _ _ _ hg']

theorem insertCatalog_idem (st : List (String × JValue)) :
    insertCatalog (insertCatalog st) = insertCatalog st := by
  rw [insertCatalog_eq (insertCatalog st)]
  rw [dictAssign_same _ _ _ (insertCatalog_get_normal st),
      dictAssign_same _ _ _ (insertCatalog_get_standard st),
      dictAssign_same _ _ _ (insertCatalog_get_high_tension st),
      dictAssign_same _ _ _ (insertCatalog_get_calm st),
      dictAssign_same _ _ _ (insertCatalog_get_cheerful st),
      dictAssign_same _ _ _ (insertCatalog_get_emotional st)]

theorem addStylesToConfig_idem {config config' : List (String × JValue)}
    (h : addStylesToConfig config = .ok config') :
    addStylesToConfig config' = .ok config' := by
  unfold addStylesToConfig at h
  split at h
  · rename_i st heq
    have hsty : dictGet? config' "styles" = some (.obj (insertCatalog st)) := by
      rw [speakersPhase_ok_get_ne h "styles" (by decide), dictGet?_assign]
      simp
    have hcont : dictContains config' "styles" = true := by
      simp [dictContains, hsty]
    unfold addStylesToConfig
    rw [ensure_styles_of_contains _ hcont]
    simp only [hsty]
    rw [insertCatalog_idem st, dictAssign_same _ _ _ hsty]
    exact speakersPhase_idem h
  · exact absurd h (by simp)

end AivisSpeechStyleAdder

namespace AivisSpeechStyleAdder

theorem isAivisTagged_assign_config (fields : List (String × JValue)) (v : JValue) :
    isAivisTagged (dictAssign fields "config" v) = isAivisTagged fields := by
  unfold isAivisTagged
  rw [dictGet?_assign]
  simp

/-- C3 helper, stated over full documents. -/
theorem add_styles_to_model_idem {m m' : JValue}
    (h : add_styles_to_model m = .ok m') :
    add_styles_to_model m' = .ok m' := by
  cases m with
  | obj fields =>
      simp only [add_styles_to_model] at h
      split at h
      · rename_i htag
        split at h
        · rename_i c hcfg
          cases hac : addStylesToConfig c with
          | error e =>
              rw [hac] at h
              simp at h
          | ok c' =>
              rw [hac] at h
              simp only [Except.ok.injEq] at h
              subst h
              have htag' : isAivisTagged (dictAssign fields "config" (.obj c')) = true := by
                rw [isAivisTagged_assign_config]
                exact htag
              have hcfg' : dictGet? (dictAssign fields "config" (.obj c')) "config"
                  = some (.obj c') := by
                rw [dictGet?_assign]
                simp
              simp only [add_styles_to_model, htag', if_true, hcfg']
              simp [addStylesToConfig_idem hac, dictAssign_same _ _ _ hcfg']
        · rename_i hne
          simp at h
        · simp at h
      · rename_i htag
        cases hac : addStylesToConfig fields with
        | error e =>
            rw [hac] at h
            simp at h
        | ok c' =>
            rw [hac] at h
            simp only [Except.ok.injEq] at h
            subst h
            have hty : dictGet? c' "type" = dictGet? fields "type" :=
              addStylesToConfig_ok_get_ne hac "type" (by decide) (by decide)
            have htag' : ¬ (isAivisTagged c' = true) := by
              unfold isAivisTagged at htag ⊢
              rw [hty]
              exact htag
            simp only [add_styles_to_model, htag', if_false]
            simp [addStylesToConfig_idem hac]
  | null => simp [add_styles_to_model] at h
  | bool b => simp [add_styles_to_model] at h
  | num q => simp [add_styles_to_model] at h
  | str s => simp [add_styles_to_model] at h
  | arr xs => simp [add_styles_to_model] at h

end AivisSpeechStyleAdder

namespace AivisSpeechStyleAdder

/-! ### Speaker-pass characterization -/

theorem mapSpeakers_ok_forall {xs ys : List JValue} (h : mapSpeakers xs = .ok ys) :
    List.Forall₂ (fun x y => speakerStep x = .ok y) xs ys := by
  induction xs generalizing ys with
  | nil =>
      simp [mapSpeakers] at h
      subst h
      exact List.Forall₂.nil
  | cons x xs ih =>
      cases hstep : speakerStep x with
      | error e => simp [mapSpeakers, hstep] at h
      | ok y =>
          cases hrec : mapSpeakers xs with
          | error e => simp [mapSpeakers, hstep, hrec] at h
          | ok ys' =>
              simp [mapSpeakers, hstep, hrec] at h
              subst h
              exact List.Forall₂.cons hstep (ih hrec)

theorem addStylesToConfig_ok_speakers {config config' : List (String × JValue)}
    {xs : List JValue}
    (h : addStylesToConfig config = .ok config')
    (hsp : dictGet? config "speakers" = some (.arr xs)) :
    ∃ ys, mapSpeakers xs = .ok ys ∧
      dictGet? config' "speakers" = some (.arr ys) := by
  unfold addStylesToConfig at h
  split at h
  · rename_i st heq
    have hsp₂ : dictGet? (dictAssign (ensure_styles config) "styles"
        (.obj (insertCatalog st))) "speakers" = some (.arr xs) := by
      rw [dictGet?_assign]
      simp [ensure_styles_get_ne config "speakers" (by decide), hsp]
    unfold speakersPhase at h
    rw [hsp₂] at h
    cases hm : mapSpeakers xs with
    | error e => simp [speakersPass, hm] at h
    | ok ys =>
        simp [speakersPass, hm] at h
        subst h
        refine ⟨ys, rfl, ?_⟩
        rw [dictGet?_assign]
        simp
  · exact absurd h (by simp)

end AivisSpeechStyleAdder

/-! ### Filesystem lemmas -/

theorem append_left_cancel_str {a b c : String} (h : a ++ b = a ++ c) : b = c := by
  apply String.ext
  have hd := congrArg String.data h
  simp only [String.data_append] at hd
  exact List.append_cancel_left hd

theorem dictGet?_eq_none_iff {α : Type} (d : List (String × α)) (k : String) :
    dictGet? d k = none ↔ ∀ p ∈ d, ¬ (p.1 = k) := by
  induction d with
  | nil => simp [dictGet?]
  | cons p rest ih =>
      obtain ⟨k₀, v₀⟩ := p
      by_cases h : k₀ = k <;> simp [dictGet?, h, ih]

theorem FS.mkdir_files (fs : FS) (d : String) : (fs.mkdir d).files = fs.files := by
  unfold FS.mkdir
  split <;> rfl

theorem FS.mkdir_failWrite (fs : FS) (d : String) :
    (fs.mkdir d).failWrite = fs.failWrite := by
  unfold FS.mkdir
  split <;> rfl

theorem FS.extractAll_cons (fs : FS) (d : String) (e : String × Content)
    (rest : List (String × Content)) :
    fs.extractAll d (e :: rest)
      = (fs.writeFile (d ++ "/" ++ e.1) e.2).extractAll d rest := rfl

theorem FS.extractAll_get_none (fs : FS) (d : String)
    (entries : List (String × Content)) (p : String)
    (hp : dictGet? fs.files p = none)
    (hn : ∀ e ∈ entries, ¬ (d ++ "/" ++ e.1 = p)) :
    dictGet? ((fs.extractAll d entries)).files p = none := by
  induction entries generalizing fs with
  | nil => exact hp
  | cons e rest ih =>
      rw [FS.extractAll_cons]
      apply ih
      · show dictGet? (dictAssign fs.files _ _) p = none
        rw [dictGet?_assign]
        simp [hn e (by simp), hp]
      · intro e' he'
        exact hn e' (by simp [he'])

theorem FS.rmtree_no_dir (fs : FS) (d : String) : ¬ d ∈ (fs.rmtree d).dirs := by
  intro hmem
  unfold FS.rmtree at hmem
  simp at hmem

theorem FS.rmtree_no_files (fs : FS) (d : String) :
    ∀ p ∈ (fs.rmtree d).files, ¬ underDir d p.1 = true := by
  intro p hmem
  unfold FS.rmtree at hmem
  simp at hmem
  simpa using hmem.2

namespace AivisSpeechStyleAdder

theorem load_aivis_model_error_clean (fs : FS) (model_path : String) (e : String)
    (h : (load_aivis_model fs model_path).1 = .error e) :
    ¬ temp_dir ∈ (load_aivis_model fs model_path).2.dirs ∧
    ∀ p ∈ (load_aivis_model fs model_path).2.files,
      ¬ underDir temp_dir p.1 = true := by
  unfold load_aivis_model at h ⊢
  cases hr : FS.readFile? (fs.mkdir temp_dir) model_path with
  | none =>
      simp only [hr]
      exact ⟨FS.rmtree_no_dir _ _, FS.rmtree_no_files _ _⟩
  | some c =>
      cases c with
      | zip entries =>
          simp only [hr] at h ⊢
          cases hc : FS.readFile? ((fs.mkdir temp_dir).extractAll temp_dir entries)
              (temp_dir ++ "/config.json") with
          | none =>
              simp only [hc]
              exact ⟨FS.rmtree_no_dir _ _, FS.rmtree_no_files _ _⟩
          | some cc =>
              cases cc with
              | json v =>
                  rw [hc] at h
                  simp at h
              | zip es =>
                  simp only [hc]
                  exact ⟨FS.rmtree_no_dir _ _, FS.rmtree_no_files _ _⟩
              | raw s =>
                  simp only [hc]
                  exact ⟨FS.rmtree_no_dir _ _, FS.rmtree_no_files _ _⟩
      | json v =>
          simp only [hr]
          exact ⟨FS.rmtree_no_dir _ _, FS.rmtree_no_files _ _⟩
      | raw s =>
          simp only [hr]
          exact ⟨FS.rmtree_no_dir _ _, FS.rmtree_no_files _ _⟩

theorem load_aivis_model_missing_config (fs : FS) (model_path : String)
    (entries : List (String × Content))
    (hread : fs.readFile? model_path = some (.zip entries))
    (hstale : dictGet? fs.files (temp_dir ++ "/config.json") = none)
    (hnocfg : dictGet? entries "config.json" = none) :
    (load_aivis_model fs model_path).1
      = .error "FileNotFoundError: config.json not found" := by
  have hread' : FS.readFile? (fs.mkdir temp_dir) model_path
      = some (.zip entries) := by
    show dictGet? (fs.mkdir temp_dir).files model_path = _
    rw [FS.mkdir_files]
    exact hread
  have hnone : FS.readFile? ((fs.mkdir temp_dir).extractAll temp_dir entries)
      (temp_dir ++ "/config.json") = none := by
    apply FS.extractAll_get_none
    · show dictGet? (fs.mkdir temp_dir).files _ = none
      rw [FS.mkdir_files]
      exact hstale
    · intro ent hent heq
      have hacc : (temp_dir ++ "/") ++ "config.json"
          = temp_dir ++ "/config.json" := rfl
      rw [← hacc] at heq
      have : ent.1 = "config.json" := append_left_cancel_str heq
      rw [dictGet?_eq_none_iff] at hnocfg
      exact hnocfg ent hent this
  unfold load_aivis_model
  simp only [hread', hnone]

end AivisSpeechStyleAdder

open AivisSpeechStyleAdder

/-! ### Claim theorems -/

/-- C1 counterexample: the claim says that after the merge the `styles`
mapping contains *exactly* the six catalog identifiers.  On a configuration
whose pre-existing `styles` mapping holds a non-catalog identifier
`"extra"`, the merged mapping has seven keys, `"extra"` among them, and
`"extra"` is not a catalog identifier. -/
theorem C1_counterexample :
    (add_styles_to_model (.obj [("styles", .obj [("extra", .null)])])).map
        stylesKeysOf
      = .ok ["extra", "normal", "standard", "high_tension", "calm",
             "cheerful", "emotional"] ∧
    ¬ ("extra" ∈ ["normal", "standard", "high_tension", "calm",
                  "cheerful", "emotional"]) :=
  ⟨rfl, by decide⟩

/-- C1 (amended): after a successful merge the `styles` mapping contains an
entry for each of the six catalog identifiers whose `parameters` record
equals the tabulated values exactly (e.g. high_tension has speed 1.2,
pitch 0.2, intonation 1.5, volume 1.2, emotion_strength 0.8); pre-existing
entries under other identifiers are retained, so the mapping consists of
exactly the six (in catalog order) whenever the configuration had no prior
`styles` mapping. -/
theorem C1_amended_catalog_entries
    (config config' : List (String × JValue))
    (h : addStylesToConfig config = .ok config') :
    ∃ st', dictGet? config' "styles" = some (.obj st') ∧
      dictGet? st' "normal" = some (.obj [("name", .str "ノーマル"),
        ("parameters", .obj [("speed", .num 1.0), ("pitch", .num 0.0),
          ("intonation", .num 1.0), ("volume", .num 1.0),
          ("emotion_strength", .num 0.5)])]) ∧
      dictGet? st' "standard" = some (.obj [("name", .str "通常"),
        ("parameters", .obj [("speed", .num 1.0), ("pitch", .num 0.0),
          ("intonation", .num 1.0), ("volume", .num 1.0),
          ("emotion_strength", .num 0.5)])]) ∧
      dictGet? st' "high_tension" = some (.obj [("name", .str "テンション高め"),
        ("parameters", .obj [("speed", .num 1.2), ("pitch", .num 0.2),
          ("intonation", .num 1.5), ("volume", .num 1.2),
          ("emotion_strength", .num 0.8)])]) ∧
      dictGet? st' "calm" = some (.obj [("name", .str "落ち着き"),
        ("parameters", .obj [("speed", .num 0.9), ("pitch", .num (-0.1)),
          ("intonation", .num 0.8), ("volume", .num 0.9),
          ("emotion_strength", .num 0.3)])]) ∧
      dictGet? st' "cheerful" = some (.obj [("name", .str "上機嫌"),
        ("parameters", .obj [("speed", .num 1.1), ("pitch", .num 0.1),
          ("intonation", .num 1.3), ("volume", .num 1.1),
          ("emotion_strength", .num 0.7)])]) ∧
      dictGet? st' "emotional" = some (.obj [("name", .str "怒り・悲しみ"),
        ("parameters", .obj [("speed", .num 0.95), ("pitch", .num (-0.2)),
          ("intonation", .num 1.4), ("volume", .num 1.0),
          ("emotion_strength", .num 0.9)])]) ∧
      (dictContains config "styles" = false →
        st'.map Prod.fst
          = ["normal", "standard", "high_tension", "calm", "cheerful",
             "emotional"]) := by
  obtain ⟨st, hst, hsty⟩ := addStylesToConfig_ok_styles h
  refine ⟨insertCatalog st, hsty,
    insertCatalog_get_normal st, insertCatalog_get_standard st,
    insertCatalog_get_high_tension st, insertCatalog_get_calm st,
    insertCatalog_get_cheerful st, insertCatalog_get_emotional st, ?_⟩
  intro hnc
  have hempty := ensure_styles_get_of_not_contains config hnc
  rw [hst] at hempty
  simp only [Option.some.injEq, JValue.obj.injEq] at hempty
  subst hempty
  rfl

/-- Witness for C1 (amended) at the configuration `{"speakers": []}`,
which has no prior `styles` mapping. -/
theorem C1_amended_catalog_entries_witness :
    ∃ st', dictGet? [("speakers", JValue.arr []),
        ("styles", JValue.obj (insertCatalog []))] "styles"
        = some (.obj st') ∧
      dictGet? st' "normal" = some (.obj [("name", .str "ノーマル"),
        ("parameters", .obj [("speed", .num 1.0), ("pitch", .num 0.0),
          ("intonation", .num 1.0), ("volume", .num 1.0),
          ("emotion_strength", .num 0.5)])]) ∧
      dictGet? st' "standard" = some (.obj [("name", .str "通常"),
        ("parameters", .obj [("speed", .num 1.0), ("pitch", .num 0.0),
          ("intonation", .num 1.0), ("volume", .num 1.0),
          ("emotion_strength", .num 0.5)])]) ∧
      dictGet? st' "high_tension" = some (.obj [("name", .str "テンション高め"),
        ("parameters", .obj [("speed", .num 1.2), ("pitch", .num 0.2),
          ("intonation", .num 1.5), ("volume", .num 1.2),
          ("emotion_strength", .num 0.8)])]) ∧
      dictGet? st' "calm" = some (.obj [("name", .str "落ち着き"),
        ("parameters", .obj [("speed", .num 0.9), ("pitch", .num (-0.1)),
          ("intonation", .num 0.8), ("volume", .num 0.9),
          ("emotion_strength", .num 0.3)])]) ∧
      dictGet? st' "cheerful" = some (.obj [("name", .str "上機嫌"),
        ("parameters", .obj [("speed", .num 1.1), ("pitch", .num 0.1),
          ("intonation", .num 1.3), ("volume", .num 1.1),
          ("emotion_strength", .num 0.7)])]) ∧
      dictGet? st' "emotional" = some (.obj [("name", .str "怒り・悲しみ"),
        ("parameters", .obj [("speed", .num 0.95), ("pitch", .num (-0.2)),
          ("intonation", .num 1.4), ("volume", .num 1.0),
          ("emotion_strength", .num 0.9)])]) ∧
      (dictContains [("speakers", JValue.arr [])] "styles" = false →
        st'.map Prod.fst
          = ["normal", "standard", "high_tension", "calm", "cheerful",
             "emotional"]) :=
  C1_amended_catalog_entries [("speakers", JValue.arr [])]
    [("speakers", JValue.arr []), ("styles", JValue.obj (insertCatalog []))]
    (by rfl)

/-- C2: on a configuration whose `speakers` key holds a list, a successful
merge maps the speaker list pointwise: a speaker object that lacks a
`styles` field gains one equal to the ordered catalog identifier list
["normal", "standard", "high_tension", "calm", "cheerful", "emotional"],
and a speaker object that already has a `styles` field is left completely
unchanged. -/
theorem C2_speaker_styles
    (config config' : List (String × JValue)) (xs : List JValue)
    (h : addStylesToConfig config = .ok config')
    (hsp : dictGet? config "speakers" = some (.arr xs)) :
    ∃ ys, dictGet? config' "speakers" = some (.arr ys) ∧
      List.Forall₂ (fun x y => ∀ f, x = JValue.obj f →
        (dictContains f "styles" = true → y = x) ∧
        (dictContains f "styles" = false →
          y = JValue.obj (dictAssign f "styles"
            (JValue.arr [.str "normal", .str "standard", .str "high_tension",
                         .str "calm", .str "cheerful", .str "emotional"]))))
        xs ys := by
  obtain ⟨ys, hm, hget⟩ := addStylesToConfig_ok_speakers h hsp
  refine ⟨ys, hget, List.Forall₂.imp ?_ (mapSpeakers_ok_forall hm)⟩
  intro x y hxy f hxf
  subst hxf
  cases hc : dictContains f "styles" with
  | true =>
      refine ⟨fun _ => ?_, fun hfalse => ?_⟩
      · simp [speakerStep, hc] at hxy
        exact hxy.symm
      · simp [hc] at hfalse
  | false =>
      refine ⟨fun htrue => ?_, fun _ => ?_⟩
      · simp [hc] at htrue
      · simp [speakerStep, hc] at hxy
        exact hxy.symm

/-- Witness for C2 at the spec example `{"speakers": [{"id": 1}]}`. -/
theorem C2_speaker_styles_witness :
    ∃ ys, dictGet?
        [("speakers", JValue.arr
            [JValue.obj [("id", JValue.num 1), ("styles", styleIdsJson)]]),
         ("styles", JValue.obj (insertCatalog []))] "speakers"
        = some (.arr ys) ∧
      List.Forall₂ (fun x y => ∀ f, x = JValue.obj f →
        (dictContains f "styles" = true → y = x) ∧
        (dictContains f "styles" = false →
          y = JValue.obj (dictAssign f "styles"
            (JValue.arr [.str "normal", .str "standard", .str "high_tension",
                         .str "calm", .str "cheerful", .str "emotional"]))))
        [JValue.obj [("id", JValue.num 1)]] ys :=
  C2_speaker_styles
    [("speakers", JValue.arr [JValue.obj [("id", JValue.num 1)]])]
    [("speakers", JValue.arr
        [JValue.obj [("id", JValue.num 1), ("styles", styleIdsJson)]]),
     ("styles", JValue.obj (insertCatalog []))]
    [JValue.obj [("id", JValue.num 1)]]
    (by rfl) (by rfl)

/-- C3: the merge is idempotent — re-running `add_styles_to_model` on an
already-merged document reproduces it unchanged (in particular the
`styles` mapping after two applications equals the one after one). -/
theorem C3_merge_idempotent (m m' : JValue)
    (h : add_styles_to_model m = .ok m') :
    add_styles_to_model m' = .ok m' :=
  add_styles_to_model_idem h

/-- Witness for C3 at the empty configuration `{}`. -/
theorem C3_merge_idempotent_witness :
    add_styles_to_model (JValue.obj [("styles", JValue.obj (insertCatalog []))])
      = .ok (JValue.obj [("styles", JValue.obj (insertCatalog []))]) :=
  C3_merge_idempotent (JValue.obj [])
    (JValue.obj [("styles", JValue.obj (insertCatalog []))]) (by rfl)

/-- C5 (code evidence): when opening `config.json` inside the staging
directory for writing raises an I/O error, `save_model` propagates the
error to the caller, but the staging directory is NOT removed: the
returned filesystem still contains the directory `temp_aivis_extract`
and the staged file under it (`_save_aivis_model` has no try/finally
around its writes, so `shutil.rmtree` is only reached on success). -/
theorem C5_save_error_staging_left :
    save_model
        ⟨[("temp_aivis_extract/config.json", .json .null)],
         ["temp_aivis_extract"], ["temp_aivis_extract/config.json"]⟩
        (.obj [("type", .str "aivis"), ("config", .obj []),
               ("temp_dir", .str "temp_aivis_extract")]) "out.aivis"
      = (.error "IOError",
         ⟨[("temp_aivis_extract/config.json", .json .null)],
          ["temp_aivis_extract"], ["temp_aivis_extract/config.json"]⟩) ∧
    (save_model
        ⟨[("temp_aivis_extract/config.json", .json .null)],
         ["temp_aivis_extract"], ["temp_aivis_extract/config.json"]⟩
        (.obj [("type", .str "aivis"), ("config", .obj []),
               ("temp_dir", .str "temp_aivis_extract")]) "out.aivis").2.dirs
      = ["temp_aivis_extract"] ∧
    (save_model
        ⟨[("temp_aivis_extract/config.json", .json .null)],
         ["temp_aivis_extract"], ["temp_aivis_extract/config.json"]⟩
        (.obj [("type", .str "aivis"), ("config", .obj []),
               ("temp_dir", .str "temp_aivis_extract")]) "out.aivis").2.files
      = [("temp_aivis_extract/config.json", .json .null)] :=
  ⟨rfl, rfl, rfl⟩

/-- C6: loading a packaged archive whose root lacks `config.json` (given a
clean staging area) fails with the missing-config error; and, in general,
whenever `_load_aivis_model` fails, the staging directory has been removed
in the state it leaves behind: it is not among the directories and no file
under it remains. -/
theorem C6_missing_config_cleanup :
    (∀ (fs : FS) (model_path : String) (entries : List (String × Content)),
      fs.readFile? model_path = some (.zip entries) →
      dictGet? fs.files (temp_dir ++ "/config.json") = none →
      dictGet? entries "config.json" = none →
      (load_aivis_model fs model_path).1
        = .error "FileNotFoundError: config.json not found") ∧
    (∀ (fs : FS) (model_path e : String),
      (load_aivis_model fs model_path).1 = .error e →
      ¬ temp_dir ∈ (load_aivis_model fs model_path).2.dirs ∧
      ∀ p ∈ (load_aivis_model fs model_path).2.files,
        ¬ underDir temp_dir p.1 = true) :=
  ⟨load_aivis_model_missing_config, load_aivis_model_error_clean⟩

/-- Witness for C6 at an archive `m.aivis` containing only `voice.bin`. -/
theorem C6_missing_config_cleanup_witness :
    (load_aivis_model ⟨[("m.aivis", .zip [("voice.bin", .raw "v")])], [], []⟩
        "m.aivis").1
      = .error "FileNotFoundError: config.json not found" ∧
    (¬ temp_dir ∈
        (load_aivis_model ⟨[("m.aivis", .zip [("voice.bin", .raw "v")])], [], []⟩
          "m.aivis").2.dirs ∧
      ∀ p ∈ (load_aivis_model
          ⟨[("m.aivis", .zip [("voice.bin", .raw "v")])], [], []⟩
          "m.aivis").2.files,
        ¬ underDir temp_dir p.1 = true) :=
  ⟨C6_missing_config_cleanup.1 _ "m.aivis" [("voice.bin", .raw "v")]
      rfl rfl rfl,
   C6_missing_config_cleanup.2 _ "m.aivis"
      "FileNotFoundError: config.json not found"
      (C6_missing_config_cleanup.1 _ "m.aivis" [("voice.bin", .raw "v")]
        rfl rfl rfl)⟩

/-- C7: loading a path whose name ends neither in `.aivis` nor in `.json`
fails with the unsupported-format error and returns the filesystem
unchanged — no staging directory is created and nothing is written. -/
theorem C7_unsupported_format (fs : FS) (path : String)
    (h1 : endswith path ".aivis" = false)
    (h2 : endswith path ".json" = false) :
    load_model fs path = (.error "ValueError: unsupported file format", fs) := by
  unfold load_model
  rw [h1, h2]
  simp

/-- Witness for C7 at the path `model.txt`. -/
theorem C7_unsupported_format_witness :
    load_model ⟨[("model.txt", .raw "hello")], [], []⟩ "model.txt"
      = (.error "ValueError: unsupported file format",
         ⟨[("model.txt", .raw "hello")], [], []⟩) :=
  C7_unsupported_format ⟨[("model.txt", .raw "hello")], [], []⟩ "model.txt"
    rfl rfl

/-- C8 counterexample: the claim says the entry inserted for `"normal"`
carries the display name `"Normal"`; the code's catalog actually stores
the Japanese display name `"ノーマル"`, which differs from `"Normal"`. -/
theorem C8_counterexample :
    (add_styles_to_model (.obj [])).map (fun m =>
      match m with
      | JValue.obj fields =>
          match dictGet? fields "styles" with
          | some (.obj st) => (dictGet? st "normal").bind entryName
          | _ => none
      | _ => none)
      = .ok (some (.str "ノーマル")) ∧
    ¬ (JValue.str "ノーマル" = JValue.str "Normal") := by
  refine ⟨rfl, fun h => ?_⟩
  injection h with h'
  exact absurd h' (by decide)

/-- C8 (amended): after a successful merge the six inserted style entries
carry the display names of the code's catalog: normal → "ノーマル",
standard → "通常", high_tension → "テンション高め", calm → "落ち着き",
cheerful → "上機嫌", emotional → "怒り・悲しみ". -/
theorem C8_amended_display_names
    (config config' : List (String × JValue))
    (h : addStylesToConfig config = .ok config') :
    ∃ st', dictGet? config' "styles" = some (.obj st') ∧
      (dictGet? st' "normal").bind entryName = some (.str "ノーマル") ∧
      (dictGet? st' "standard").bind entryName = some (.str "通常") ∧
      (dictGet? st' "high_tension").bind entryName
        = some (.str "テンション高め") ∧
      (dictGet? st' "calm").bind entryName = some (.str "落ち着き") ∧
      (dictGet? st' "cheerful").bind entryName = some (.str "上機嫌") ∧
      (dictGet? st' "emotional").bind entryName
        = some (.str "怒り・悲しみ") := by
  obtain ⟨st, hst, hsty⟩ := addStylesToConfig_ok_styles h
  refine ⟨insertCatalog st, hsty, ?_, ?_, ?_, ?_, ?_, ?_⟩
  · rw [insertCatalog_get_normal st]
    rfl
  · rw [insertCatalog_get_standard st]
    rfl
  · rw [insertCatalog_get_high_tension st]
    rfl
  · rw [insertCatalog_get_calm st]
    rfl
  · rw [insertCatalog_get_cheerful st]
    rfl
  · rw [insertCatalog_get_emotional st]
    rfl

/-- Witness for C8 (amended) at the empty configuration `{}`. -/
theorem C8_amended_display_names_witness :
    ∃ st', dictGet? [("styles", JValue.obj (insertCatalog []))] "styles"
        = some (.obj st') ∧
      (dictGet? st' "normal").bind entryName = some (.str "ノーマル") ∧
      (dictGet? st' "standard").bind entryName = some (.str "通常") ∧
      (dictGet? st' "high_tension").bind entryName
        = some (.str "テンション高め") ∧
      (dictGet? st' "calm").bind entryName = some (.str "落ち着き") ∧
      (dictGet? st' "cheerful").bind entryName = some (.str "上機嫌") ∧
      (dictGet? st' "emotional").bind entryName
        = some (.str "怒り・悲しみ") :=
  C8_amended_display_names [] [("styles", JValue.obj (insertCatalog []))]
    (by rfl)

/-- C9: `_get_style_parameters` is total with a silent fallback — on any
identifier outside the six catalog identifiers it returns the "normal"
parameter record {speed 1.0, pitch 0.0, intonation 1.0, volume 1.0,
emotion_strength 0.5} instead of failing. -/
theorem C9_unknown_id_normal_params (s : String)
    (h : ¬ s ∈ ["normal", "standard", "high_tension", "calm", "cheerful",
                "emotional"]) :
    get_style_parameters s
      = .obj [("speed", .num 1.0), ("pitch", .num 0.0),
              ("intonation", .num 1.0), ("volume", .num 1.0),
              ("emotion_strength", .num 0.5)] := by
  simp at h
  obtain ⟨h₁, h₂, h₃, h₄, h₅, h₆⟩ := h
  have g₁ : ¬ ("normal" = s) := fun hh => h₁ hh.symm
  have g₂ : ¬ ("standard" = s) := fun hh => h₂ hh.symm
  have g₃ : ¬ ("high_tension" = s) := fun hh => h₃ hh.symm
  have g₄ : ¬ ("calm" = s) := fun hh => h₄ hh.symm
  have g₅ : ¬ ("cheerful" = s) := fun hh => h₅ hh.symm
  have g₆ : ¬ ("emotional" = s) := fun hh => h₆ hh.symm
  simp [get_style_parameters, style_params, dictGet?, g₁, g₂, g₃, g₄, g₅, g₆,
    params_normal]

/-- Witness for C9 at the non-catalog identifier `"whisper"`. -/
theorem C9_unknown_id_normal_params_witness :
    get_style_parameters "whisper"
      = .obj [("speed", .num 1.0), ("pitch", .num 0.0),
              ("intonation", .num 1.0), ("volume", .num 1.0),
              ("emotion_strength", .num 0.5)] :=
  C9_unknown_id_normal_params "whisper" (by decide)

/-- C10: the Plain/Packaged distinction is read from the document itself.
A plain JSON object that maps `"type"` to `"aivis"` but has no `"config"`
or `"temp_dir"` key is dispatched to the packaged code path by both the
merge and the save: the merge fails with a key-lookup error on `"config"`
instead of merging the object as a plain configuration, and the save fails
with a key-lookup error on `"temp_dir"` instead of writing plain JSON. -/
theorem C10_inband_type_dispatch :
    add_styles_to_model (.obj [("type", .str "aivis")])
      = .error "KeyError: config" ∧
    save_model ⟨[], [], []⟩ (.obj [("type", .str "aivis")]) "out.json"
      = (.error "KeyError: temp_dir", ⟨[], [], []⟩) :=
  ⟨rfl, rfl⟩

/-- C4 counterexample: the claim says the round-tripped configuration's
`styles` mapping matches the catalog exactly.  For an input file whose
configuration already has a `styles` mapping with the non-catalog key
`"x"`, the saved-and-reloaded configuration's `styles` mapping has seven
keys, `"x"` among them. -/
theorem C4_counterexample :
    ((load_model
        (process_file
          ⟨[("model.json", .json (.obj [("styles", .obj [("x", .null)]),
             ("other", .num 7)]))], [], []⟩
          "model.json" "out.json").2
        "out.json").1).map stylesKeysOf
      = .ok ["x", "normal", "standard", "high_tension", "calm", "cheerful",
             "emotional"] ∧
    ¬ ("x" ∈ ["normal", "standard", "high_tension", "calm", "cheerful",
              "emotional"]) :=
  ⟨rfl, by decide⟩

/-- C4 (amended): for a plain-JSON input (a `.json` path whose parsed
content is an object not tagged `"type": "aivis"`), if the
load-merge-save pipeline succeeds then loading the written output yields
a configuration in which every key outside `styles`/`speakers` is
unchanged from the original, the six catalog entries are present with
exactly the tabulated values, and the `styles` mapping consists of exactly
the six catalog identifiers whenever the input had no prior `styles`
mapping (pre-existing non-catalog style entries are retained). -/
theorem C4_amended_roundtrip
    (fs : FS) (inPath outPath : String) (fields : List (String × JValue))
    (hin1 : endswith inPath ".aivis" = false)
    (hin2 : endswith inPath ".json" = true)
    (hout1 : endswith outPath ".aivis" = false)
    (hout2 : endswith outPath ".json" = true)
    (hread : fs.readFile? inPath = some (.json (.obj fields)))
    (htag : isAivisTagged fields = false)
    (hok : (process_file fs inPath outPath).1 = .ok ()) :
    ∃ fields',
      (load_model (process_file fs inPath outPath).2 outPath).1
        = .ok (.obj fields') ∧
      (∀ k, ¬ ("styles" = k) → ¬ ("speakers" = k) →
        dictGet? fields' k = dictGet? fields k) ∧
      ∃ st', dictGet? fields' "styles" = some (.obj st') ∧
        dictGet? st' "normal" = some (styleEntry "normal" "ノーマル") ∧
        dictGet? st' "standard" = some (styleEntry "standard" "通常") ∧
        dictGet? st' "high_tension"
          = some (styleEntry "high_tension" "テンション高め") ∧
        dictGet? st' "calm" = some (styleEntry "calm" "落ち着き") ∧
        dictGet? st' "cheerful" = some (styleEntry "cheerful" "上機嫌") ∧
        dictGet? st' "emotional"
          = some (styleEntry "emotional" "怒り・悲しみ") ∧
        (dictContains fields "styles" = false →
          st'.map Prod.fst = ["normal", "standard", "high_tension", "calm",
                              "cheerful", "emotional"]) := by
  have hload : load_model fs inPath = (.ok (.obj fields), fs) := by
    unfold load_model
    rw [hin1, hin2]
    simp [hread]
  cases hac : addStylesToConfig fields with
  | error e =>
      exfalso
      have hpe : (process_file fs inPath outPath).1 = .error e := by
        unfold process_file
        rw [hload]
        simp [add_styles_to_model, htag, hac]
      rw [hpe] at hok
      exact absurd hok (by simp)
  | ok c' =>
      have htag' : isAivisTagged c' = false := by
        unfold isAivisTagged at htag ⊢
        rw [addStylesToConfig_ok_get_ne hac "type" (by decide) (by decide)]
        exact htag
      have hnotfail : ¬ outPath ∈ fs.failWrite := by
        intro hmem
        have hpe : (process_file fs inPath outPath).1 = .error "IOError" := by
          unfold process_file
          rw [hload]
          simp [add_styles_to_model, htag, hac, save_model, htag', hmem]
        rw [hpe] at hok
        exact absurd hok (by simp)
      have hproc : process_file fs inPath outPath
          = (.ok (), fs.writeFile outPath (.json (.obj c'))) := by
        unfold process_file
        rw [hload]
        simp [add_styles_to_model, htag, hac, save_model, htag', hnotfail]
      refine ⟨c', ?_, ?_, ?_⟩
      · rw [hproc]
        show (load_model (fs.writeFile outPath (.json (.obj c'))) outPath).1
          = _
        unfold load_model
        rw [hout1, hout2]
        have hget : (fs.writeFile outPath (.json (.obj c'))).readFile? outPath
            = some (.json (.obj c')) := by
          show dictGet? (dictAssign fs.files outPath _) outPath = _
          rw [dictGet?_assign]
          simp
        simp [hget]
      · intro k hk1 hk2
        exact addStylesToConfig_ok_get_ne hac k hk1 hk2
      · obtain ⟨st, hst, hsty⟩ := addStylesToConfig_ok_styles hac
        refine ⟨insertCatalog st, hsty,
          insertCatalog_get_normal st, insertCatalog_get_standard st,
          insertCatalog_get_high_tension st, insertCatalog_get_calm st,
          insertCatalog_get_cheerful st, insertCatalog_get_emotional st, ?_⟩
        intro hnc
        have hempty := ensure_styles_get_of_not_contains fields hnc
        rw [hst] at hempty
        simp only [Option.some.injEq, JValue.obj.injEq] at hempty
        subst hempty
        rfl

/-- Witness for C4 (amended) at the input file `in.json` holding
`{"other": 7}`. -/
theorem C4_amended_roundtrip_witness :
    ∃ fields',
      (load_model (process_file
          ⟨[("in.json", .json (.obj [("other", .num 7)]))], [], []⟩
          "in.json" "out.json").2 "out.json").1
        = .ok (.obj fields') ∧
      (∀ k, ¬ ("styles" = k) → ¬ ("speakers" = k) →
        dictGet? fields' k = dictGet? [("other", JValue.num 7)] k) ∧
      ∃ st', dictGet? fields' "styles" = some (.obj st') ∧
        dictGet? st' "normal" = some (styleEntry "normal" "ノーマル") ∧
        dictGet? st' "standard" = some (styleEntry "standard" "通常") ∧
        dictGet? st' "high_tension"
          = some (styleEntry "high_tension" "テンション高め") ∧
        dictGet? st' "calm" = some (styleEntry "calm" "落ち着き") ∧
        dictGet? st' "cheerful" = some (styleEntry "cheerful" "上機嫌") ∧
        dictGet? st' "emotional"
          = some (styleEntry "emotional" "怒り・悲しみ") ∧
        (dictContains [("other", JValue.num 7)] "styles" = false →
          st'.map Prod.fst = ["normal", "standard", "high_tension", "calm",
                              "cheerful", "emotional"]) :=
  C4_amended_roundtrip
    ⟨[("in.json", .json (.obj [("other", .num 7)]))], [], []⟩
    "in.json" "out.json" [("other", JValue.num 7)]
    rfl rfl rfl rfl rfl rfl (by rfl)
